import Mathlib

set_option linter.all false

/- Verification development for the Pybytes OTA update client
   (esp32/frozen/Pybytes/_OTA.py): a shallow embedding of the
   manifest-driven update orchestrator (OTA.update), the streaming
   download and hash engine (WiFiOTA.get_data), the file swap
   operations (get_file, backup_file, delete_file, write_firmware),
   the manifest fetch (get_update_manifest), and the network-config
   merge path (update_device_network_config, update_network_config).

   Conventions: a filesystem is a finite map from path to byte list;
   fallible OS calls return a Bool flag (true means the call raised)
   together with the resulting filesystem; network interactions are
   parameterized by the chunk sequence the socket yields and by an
   injected failure point covering each fallible step of get_data.
   The return codes of OTA.update are kept as in the source:
   0 = Failed, 1 = AlreadyCurrent, 2 = Applied. -/

/-- A filesystem: a finite map from paths to byte contents, as an
association list (later bindings shadow earlier ones). -/
abbrev FS := List (String × List Nat)

/-- Look a path up in the filesystem. -/
def fsGet : FS → String → Option (List Nat)
  | [], _ => none
  | (q, c) :: t, p => if q = p then some c else fsGet t p

/-- Remove every binding of a path. -/
def fsErase (p : String) : FS → FS
  | [] => []
  | (q, c) :: t => if q = p then fsErase p t else (q, c) :: fsErase p t

/-- Bind a path to a content, replacing any previous binding. -/
def fsSet (p : String) (c : List Nat) (fs : FS) : FS :=
  (p, c) :: fsErase p fs

/-- os.remove: raises OSError (flag true) when the path is absent,
otherwise deletes the file. -/
def osRemove (p : String) (fs : FS) : Bool × FS :=
  match fsGet fs p with
  | none => (true, fs)
  | some _ => (false, fsErase p fs)

/-- os.rename: raises OSError (flag true) when the source is absent;
otherwise moves the content, overwriting any file at the destination. -/
def osRename (src dst : String) (fs : FS) : Bool × FS :=
  match fsGet fs src with
  | none => (true, fs)
  | some c => (false, fsSet dst c (fsErase src fs))

/-- The double-CRLF header terminator, as bytes. -/
def SEP : List Nat := [13, 10, 13, 10]

/-- Does the byte list start with the double-CRLF separator? -/
def startsWithSep : List Nat → Bool
  | 13 :: 10 :: 13 :: 10 :: _ => true
  | _ => false

/-- Does the byte list contain the double-CRLF separator
(the Python test SEP in result)? -/
def containsSep : List Nat → Bool
  | [] => false
  | a :: t => startsWithSep (a :: t) || containsSep t

/-- Bytes strictly after the first occurrence of the separator
(meaningful when containsSep holds). -/
def afterSep : List Nat → List Nat
  | [] => []
  | a :: t => if startsWithSep (a :: t) then t.drop 3 else afterSep t

/-- Bytes up to (excluding) the next occurrence of the separator.
Composed with afterSep this is the Python expression
result.split(SEP)[1]: the segment between the first and the second
occurrence of the separator, or everything after the first occurrence
when it occurs only once. -/
def takeUntilSep : List Nat → List Nat
  | [] => []
  | a :: t => if startsWithSep (a :: t) then [] else a :: takeUntilSep t

/-- Hex digit characters, lowercase. -/
def hexDigitChar : Nat → Char
  | 0 => '0' | 1 => '1' | 2 => '2' | 3 => '3' | 4 => '4'
  | 5 => '5' | 6 => '6' | 7 => '7' | 8 => '8' | 9 => '9'
  | 10 => 'a' | 11 => 'b' | 12 => 'c' | 13 => 'd' | 14 => 'e' | 15 => 'f'
  | _ => '0'

/-- Two lowercase hex digits per byte, as ubinascii.hexlify does. -/
def hexChars : List Nat → List Char
  | [] => []
  | b :: t => hexDigitChar (b % 256 / 16) :: hexDigitChar (b % 16) :: hexChars t

/-- The lowercase hex string of a byte list:
ubinascii.hexlify(digest).decode(). -/
def hexOfBytes (l : List Nat) : String :=
  String.mk (hexChars l)

/-- Is the character a lowercase hex digit (a decimal digit or one of
the code points 97 to 102)? -/
def isHexLowerChar (ch : Char) : Bool :=
  (48 ≤ ch.toNat && ch.toNat ≤ 57) || (97 ≤ ch.toNat && ch.toNat ≤ 102)

/-- Is the string made of lowercase hex digits only? -/
def isLowerHexString (s : String) : Bool :=
  s.data.all isHexLowerChar

/-- Injected failure point for one get_data call, covering each
fallible step of the source: opening the destination file, starting
the flash session, each recv (index 0 is the recv before the loop,
index i+1 the recv at the end of iteration i), each sink write,
closing the socket, closing the file, finishing the flash session.
FailPoint.ok injects no failure. -/
inductive FailPoint where
  | ok
  | atOpen
  | atOtaStart
  | atRecv (i : Nat)
  | atWrite (i : Nat)
  | atClose
  | atFpClose
  | atOtaFinish
deriving DecidableEq, Repr

/-- One network interaction: the successive chunks recv yields, and
the digest function of the external uhashlib collaborator (applied to
all bytes fed to h.update). -/
structure DownloadEnv where
  chunks : List (List Nat)
  digest : List Nat → List Nat

/-- The receive loop of WiFiOTA.get_data (lines 266-285): scan for the
separator chunk by chunk, write result.split(SEP)[1] of the chunk that
contains it, write every later chunk whole, stop at the first empty
chunk. Returns the bytes written to the sink in order, and whether an
exception was raised (by an injected write or recv failure). -/
def gdLoop (fail : FailPoint) : List (List Nat) → Nat → Bool → List Nat × Bool
  | [], _, _ => ([], false)
  | c :: rest, i, sw =>
    if c.isEmpty then ([], false)
    else
      let p := if sw then c
        else if containsSep c then takeUntilSep (afterSep c) else []
      let sw2 := sw || containsSep c
      if fail = FailPoint.atWrite i ∧ sw2 = true then ([], true)
      else if fail = FailPoint.atRecv (i + 1) then (p, true)
      else
        let r := gdLoop fail rest (i + 1) sw2
        (p ++ r.1, r.2)

/-- The body bytes get_data writes to its sink on a run without
injected failures, for a given chunk sequence. -/
def gdBody (cs : List (List Nat)) : List Nat :=
  (gdLoop FailPoint.ok cs 0 false).1

/-- What the spec words of the boundary claim describe: the body is
everything after the first occurrence of the double-CRLF separator in
the concatenated stream, nothing after it lost. Stated from the spec
for comparison with the code model gdBody. -/
def specBodyOfStream (cs : List (List Nat)) : List Nat :=
  afterSep cs.join

/-- Return value of a completed get_data call: the shapes of lines
305-311 of the source (returning nothing is noneRet). -/
inductive GDRet where
  | bytesOnly (b : List Nat)
  | bytesAndHash (b : List Nat) (s : String)
  | hashOnly (s : String)
  | noneRet
deriving DecidableEq, Repr

/-- Outcome of one get_data call: the returned value (none when an
exception propagated to the caller), the filesystem, and the number of
digest contexts created and finalized during the call. -/
structure GDOut where
  ret : Option GDRet
  fs : FS
  creates : Nat
  finals : Nat
deriving DecidableEq, Repr

/-- WiFiOTA.get_data (lines 233-311). The try block: raise when a
destination file and firmware mode are both requested; open (and
truncate) the destination file when given; start the flash session in
firmware mode; create the single sha1 context; run the receive loop;
close socket, file, flash session. The except clause finalizes the
digest context when one was created and re-raises. On success the
digest is extracted (line 303) and the return shape depends on
dest_path and hash. -/
def get_data (env : DownloadEnv) (dest_path : Option String) (hash firmware : Bool)
    (fail : FailPoint) (fs : FS) : GDOut :=
  if dest_path.isSome = true ∧ firmware = true then
    ⟨none, fs, 0, 0⟩
  else if dest_path.isSome = true ∧ fail = FailPoint.atOpen then
    ⟨none, fs, 0, 0⟩
  else
    let fs1 : FS := match dest_path with
      | some p => fsSet p [] fs
      | none => fs
    if firmware = true ∧ fail = FailPoint.atOtaStart then
      ⟨none, fs1, 0, 0⟩
    else if fail = FailPoint.atRecv 0 then
      ⟨none, fs1, 1, 1⟩
    else
      let r := gdLoop fail env.chunks 0 false
      let fs2 : FS := match dest_path with
        | some p => fsSet p r.1 fs1
        | none => fs1
      if r.2 = true then ⟨none, fs2, 1, 1⟩
      else if fail = FailPoint.atClose then ⟨none, fs2, 1, 1⟩
      else if dest_path.isSome = true ∧ fail = FailPoint.atFpClose then ⟨none, fs2, 1, 1⟩
      else if firmware = true ∧ fail = FailPoint.atOtaFinish then ⟨none, fs2, 1, 1⟩
      else
        let hashed := if hash = true then r.1 else []
        let hv := hexOfBytes (env.digest hashed)
        let retv : GDRet := match dest_path, hash with
          | none, true => GDRet.bytesAndHash (if firmware = true then [] else r.1) hv
          | none, false => GDRet.bytesOnly (if firmware = true then [] else r.1)
          | some _, true => GDRet.hashOnly hv
          | some _, false => GDRet.noneRet
        ⟨some retv, fs2, 1, 1⟩

/-- A file entry of the manifest: URL, dst_path, hash keys. -/
structure FileEntry where
  URL : String
  dst_path : String
  hash : String
deriving DecidableEq, Repr

/-- A firmware entry of the manifest: the URL key. -/
structure FirmwareEntry where
  URL : String
deriving DecidableEq, Repr

/-- The parsed manifest: each key is optional, matching the Python
membership tests key in manifest. -/
structure Manifest where
  new : Option (List FileEntry)
  update : Option (List FileEntry)
  delete : Option (List String)
  firmware : Option FirmwareEntry
deriving DecidableEq, Repr

/-- Outcome of OTA.get_file: ok is false when the call raised. -/
structure GFOut where
  ok : Bool
  fs : FS
deriving DecidableEq, Repr

/-- OTA.get_file (lines 140-158): remove a stale dst_path + ".new"
ignoring OSError, download to the .new path with hashing, raise when
the computed digest differs from the declared hash. -/
def get_file (env : DownloadEnv) (fail : FailPoint) (f : FileEntry) (fs : FS) : GFOut :=
  let new_path := f.dst_path ++ ".new"
  let fs1 := (osRemove new_path fs).2
  let out := get_data env (some new_path) true false fail fs1
  let okFlag := match out.ret with
    | some (GDRet.hashOnly hv) => hv == f.hash
    | _ => false
  ⟨okFlag, out.fs⟩

/-- OTA.backup_file (lines 160-171): remove a stale dst_path + ".bak"
ignoring OSError, then rename the current file onto the .bak path; the
rename raises (flag true) when the current file is absent. -/
def backup_file (dst : String) (fs : FS) : Bool × FS :=
  let bak := dst ++ ".bak"
  let fs1 := (osRemove bak fs).2
  osRename dst bak fs1

/-- OTA.delete_file (lines 173-184): remove a stale
"/" ++ p ++ ".bak_del" ignoring OSError, then rename the target onto
that backup path; the rename raises (flag true) when the target is
absent. -/
def delete_file (p : String) (fs : FS) : Bool × FS :=
  let bak := "/" ++ p ++ ".bak_del"
  let dst := "/" ++ p
  let fs1 := (osRemove bak fs).2
  osRename dst bak fs1

/-- OTA.write_firmware (lines 186-202): stream the firmware URL to the
flash session through get_data with hashing on (the URL parsing only
retargets the transport and has no filesystem effect). The flag is
true when get_data raised. -/
def write_firmware (env : DownloadEnv) (fail : FailPoint) (fs : FS) : Bool × FS :=
  let out := get_data env none true true fail fs
  (out.ret.isNone, out.fs)

/-- Events recorded while OTA.update runs: a get_file staging attempt,
a backup_file call, a commit rename of dst_path + ".new" onto
dst_path, a delete_file call, a write_firmware call. -/
inductive UEvent where
  | stage (dst : String)
  | backup (dst : String)
  | commit (dst : String)
  | del (p : String)
  | fw
deriving DecidableEq, Repr

/-- Is the event a backup_file call or a commit rename? -/
def backupOrCommit : UEvent → Bool
  | UEvent.backup _ => true
  | UEvent.commit _ => true
  | _ => false

/-- Is the event part of the stage, backup, commit phase over file
entries? -/
def filesEvent : UEvent → Bool
  | UEvent.stage _ => true
  | UEvent.backup _ => true
  | UEvent.commit _ => true
  | _ => false

/-- Result of the per-entry retry loop of OTA.update (lines 95-105). -/
inductive StageLoopRes where
  | success (fs : FS)
  | failed (fs : FS)
  | exhausted (fs : FS)
deriving DecidableEq, Repr

/-- The per-entry retry loop (lines 95-105): for each remaining unit
of budget, call get_file; on success break out of the loop; on an
exception the handler prints the error and the retrying message and
then executes return 0, so the function exits on the first failure
(StageLoopRes.failed) and never actually retries; the for-else raise
(StageLoopRes.exhausted) fires only when the budget is already 0.
Successive get_file calls consume successive indices of net. -/
def stageLoop (net : Nat → DownloadEnv × FailPoint) (f : FileEntry) :
    Nat → Nat → FS → StageLoopRes × Nat
  | 0, k, fs => (StageLoopRes.exhausted fs, k)
  | _ + 1, k, fs =>
    let e := net k
    let r := get_file e.1 e.2 f fs
    if r.ok then (StageLoopRes.success r.fs, k + 1)
    else (StageLoopRes.failed r.fs, k + 1)

/-- Result of the staging pass over the combined new ++ update list:
ok (all entries staged), failed0 (update executes return 0), raised
(the for-else exception propagates). The Nat is the next unused net
index. -/
inductive StagePhaseRes where
  | ok (fs : FS) (k : Nat)
  | failed0 (fs : FS) (k : Nat)
  | raised (fs : FS) (k : Nat)
deriving DecidableEq, Repr

/-- Did the staging pass stage every entry? -/
def StagePhaseRes.isStageOk : StagePhaseRes → Bool
  | StagePhaseRes.ok _ _ => true
  | _ => false

/-- The staging pass of OTA.update (lines 93-105): run the retry loop
with budget 5 for each entry of the combined list, recording a stage
event per get_file call. -/
def stagePhase (net : Nat → DownloadEnv × FailPoint) :
    List FileEntry → Nat → FS → StagePhaseRes × List UEvent
  | [], k, fs => (StagePhaseRes.ok fs k, [])
  | f :: rest, k, fs =>
    match stageLoop net f 5 k fs with
    | (StageLoopRes.success fs2, k2) =>
      let s := stagePhase net rest k2 fs2
      (s.1, UEvent.stage f.dst_path :: s.2)
    | (StageLoopRes.failed fs2, k2) =>
      (StagePhaseRes.failed0 fs2 k2, [UEvent.stage f.dst_path])
    | (StageLoopRes.exhausted fs2, k2) =>
      (StagePhaseRes.raised fs2 k2, [UEvent.stage f.dst_path])

/-- The backup pass of OTA.update (lines 109-110): backup_file on each
update entry; a raised OSError (flag true) stops the pass and
propagates. -/
def backupPhase : List FileEntry → FS → Bool × FS × List UEvent
  | [], fs => (false, fs, [])
  | f :: rest, fs =>
    let r := backup_file f.dst_path fs
    if r.1 then (true, r.2, [UEvent.backup f.dst_path])
    else
      let s := backupPhase rest r.2
      (s.1, s.2.1, UEvent.backup f.dst_path :: s.2.2)

/-- The commit pass of OTA.update (lines 113-117): rename
dst_path + ".new" onto dst_path for each entry of the combined list; a
raised OSError (flag true) stops the pass and propagates. -/
def commitPhase : List FileEntry → FS → Bool × FS × List UEvent
  | [], fs => (false, fs, [])
  | f :: rest, fs =>
    let r := osRename (f.dst_path ++ ".new") f.dst_path fs
    if r.1 then (true, r.2, [UEvent.commit f.dst_path])
    else
      let s := commitPhase rest r.2
      (s.1, s.2.1, UEvent.commit f.dst_path :: s.2.2)

/-- The delete pass of OTA.update (lines 122-123): delete_file on each
listed path; a raised OSError (flag true) stops the pass and
propagates. -/
def deletePhase : List String → FS → Bool × FS × List UEvent
  | [], fs => (false, fs, [])
  | p :: rest, fs =>
    let r := delete_file p fs
    if r.1 then (true, r.2, [UEvent.del p])
    else
      let s := deletePhase rest r.2
      (s.1, s.2.1, UEvent.del p :: s.2.2)

/-- How one block of OTA.update ends: fall through to the next block,
return a code from update, or let an exception propagate out of
update. -/
inductive BlockRes where
  | cont (fs : FS)
  | ret (code : Nat) (fs : FS)
  | exc (fs : FS)
deriving DecidableEq, Repr

/-- The file block of OTA.update (lines 92-117). It runs only when the
manifest has both the new and the update key (the source tests
"new" in manifest and "update" in manifest); then it stages
new ++ update, backs up the update entries, and commits new ++ update.
Returns the block outcome, the next unused net index, and the events. -/
def filesBlock (net : Nat → DownloadEnv × FailPoint) (m : Manifest) (fs : FS) :
    BlockRes × Nat × List UEvent :=
  match m.new, m.update with
  | some nl, some ul =>
    match stagePhase net (nl ++ ul) 0 fs with
    | (StagePhaseRes.failed0 fs1 k1, tr1) => (BlockRes.ret 0 fs1, k1, tr1)
    | (StagePhaseRes.raised fs1 k1, tr1) => (BlockRes.exc fs1, k1, tr1)
    | (StagePhaseRes.ok fs1 k1, tr1) =>
      let b := backupPhase ul fs1
      if b.1 then (BlockRes.exc b.2.1, k1, tr1 ++ b.2.2)
      else
        let c := commitPhase (nl ++ ul) b.2.1
        if c.1 then (BlockRes.exc c.2.1, k1, tr1 ++ b.2.2 ++ c.2.2)
        else (BlockRes.cont c.2.1, k1, tr1 ++ b.2.2 ++ c.2.2)
  | _, _ => (BlockRes.cont fs, 0, [])

/-- The delete block of OTA.update (lines 119-123): runs when the
manifest has the delete key. -/
def deleteBlock (m : Manifest) (fs : FS) : BlockRes × List UEvent :=
  match m.delete with
  | some ps =>
    let d := deletePhase ps fs
    if d.1 then (BlockRes.exc d.2.1, d.2.2) else (BlockRes.cont d.2.1, d.2.2)
  | none => (BlockRes.cont fs, [])

/-- The firmware block of OTA.update (lines 126-127): runs when the
manifest has the firmware key, consuming one net interaction. -/
def fwBlock (net : Nat → DownloadEnv × FailPoint) (m : Manifest) (k : Nat) (fs : FS) :
    BlockRes × Nat × List UEvent :=
  match m.firmware with
  | some _ =>
    let e := net k
    let r := write_firmware e.1 e.2 fs
    if r.1 then (BlockRes.exc r.2, k + 1, [UEvent.fw])
    else (BlockRes.cont r.2, k + 1, [UEvent.fw])
  | none => (BlockRes.cont fs, k, [])

/-- Outcome of OTA.update: the return code (0 Failed, 1 AlreadyCurrent,
2 Applied; none when an exception propagated), the filesystem, and the
recorded events. -/
structure UpdOut where
  ret : Option Nat
  fs : FS
  tr : List UEvent
deriving DecidableEq, Repr

/-- OTA.update (lines 80-138). manifestSrc is the outcome of obtaining
the manifest (the custom manifest or the get_update_manifest call):
an exception there is caught and update returns 0; a None manifest
returns 1; otherwise the file block, the delete block and the firmware
block run in order and update returns 2 on full completion. -/
def update (manifestSrc : Except Unit (Option Manifest))
    (net : Nat → DownloadEnv × FailPoint) (fs : FS) : UpdOut :=
  match manifestSrc with
  | Except.error _ => ⟨some 0, fs, []⟩
  | Except.ok none => ⟨some 1, fs, []⟩
  | Except.ok (some m) =>
    match filesBlock net m fs with
    | (BlockRes.ret c1 fs1, _, tr1) => ⟨some c1, fs1, tr1⟩
    | (BlockRes.exc fs1, _, tr1) => ⟨none, fs1, tr1⟩
    | (BlockRes.cont fs1, k1, tr1) =>
      match deleteBlock m fs1 with
      | (BlockRes.exc fs2, tr2) => ⟨none, fs2, tr1 ++ tr2⟩
      | (BlockRes.ret c2 fs2, tr2) => ⟨some c2, fs2, tr1 ++ tr2⟩
      | (BlockRes.cont fs2, tr2) =>
        match fwBlock net m k1 fs2 with
        | (BlockRes.exc fs3, _, tr3) => ⟨none, fs3, tr1 ++ tr2 ++ tr3⟩
        | (BlockRes.ret c3 fs3, _, tr3) => ⟨some c3, fs3, tr1 ++ tr2 ++ tr3⟩
        | (BlockRes.cont fs3, _, tr3) => ⟨some 2, fs3, tr1 ++ tr2 ++ tr3⟩

/-- The semantic content of a manifest response payload: empty body,
the JSON null literal, malformed text, or a manifest object. -/
inductive Payload where
  | empty
  | null
  | malformed
  | object (m : Manifest)
deriving DecidableEq, Repr

/-- Modelled from the spec: ujson.loads, the MicroPython JSON parser,
is repository code that is not under src (only its caller
get_update_manifest is). Section 4.1 of the spec fixes its contract
for this caller: a response representing no manifest (empty or null
payload) is distinct from a parse error and must propagate as None,
while a parse failure is surfaced to the caller as an exception; a
well-formed object parses to the manifest. -/
def ujson_loads : Payload → Except Unit (Option Manifest)
  | Payload.empty => Except.ok none
  | Payload.null => Except.ok none
  | Payload.malformed => Except.error ()
  | Payload.object m => Except.ok (some m)

/-- OTA.get_update_manifest (lines 60-78): build the manifest request
from the device identity (transport addressing only, no observable
effect here), fetch it with get_data (fetchFails true when that
transfer raises, propagating), decode and parse the body with
ujson.loads. -/
def get_update_manifest (fetchFails : Bool) (payload : Payload) :
    Except Unit (Option Manifest) :=
  if fetchFails then Except.error () else ujson_loads payload

/-- The lora sub-object of a network configuration response: the otaa
and abp keys (absent keys raise KeyError on access). -/
structure LoraConf where
  otaa : Option (List Nat)
  abp : Option (List Nat)
deriving DecidableEq, Repr

/-- The networkConfig object of a network configuration response; each
field mirrors one optional key. -/
structure NetConf where
  networkPreferences : Option (List Nat)
  wifi : Option (List Nat)
  lte : Option (List Nat)
  lora : Option LoraConf
deriving DecidableEq, Repr

/-- The persisted device configuration dict: the keys the merge path
reads and writes, each optional. -/
structure PyConfig where
  device_id : Option String
  network_preferences : Option (List Nat)
  wifi : Option (List Nat)
  lte : Option (List Nat)
  lora : Option (List Nat × List Nat)
deriving DecidableEq, Repr

/-- The try-block body of WiFiOTA.update_network_config (lines
330-353), letResp modelled by its optional networkConfig member. The
Bool records whether the body raised (a KeyError on a missing
networkPreferences, otaa or abp key, or a failure of
fcota.update_file_content when persistFails is set); the returned
config holds the mutations applied before the raise, since the Python
dict is updated in place. -/
def unc_body (letResp : Option NetConf) (persistFails : Bool) (config : PyConfig) :
    PyConfig × Bool :=
  match letResp with
  | none => (config, false)
  | some nc =>
    match nc.networkPreferences with
    | none => (config, true)
    | some nprefs =>
      let c1 := { config with network_preferences := some nprefs }
      let c2 := match nc.wifi with
        | some w => { c1 with wifi := some w }
        | none => { c1 with wifi := none }
      let c3 := match nc.lte with
        | some v => { c2 with lte := some v }
        | none => { c2 with lte := none }
      match nc.lora with
      | some lc =>
        match lc.otaa, lc.abp with
        | some oa, some ab =>
          let c4 := { c3 with lora := some (oa, ab) }
          (c4, persistFails)
        | _, _ => (c3, true)
      | none =>
        let c4 := { c3 with lora := none }
        (c4, persistFails)

/-- WiFiOTA.update_network_config (lines 328-355): the whole body sits
in a try block whose except clause logs and swallows, so the call
always returns normally with the in-place-mutated config. -/
def update_network_config (letResp : Option NetConf) (persistFails : Bool)
    (config : PyConfig) : PyConfig :=
  (unc_body letResp persistFails config).1

/-- WiFiOTA.update_device_network_config (lines 313-326): the target
URL is built from config reading the device_id key before the try
block, so a missing device_id raises KeyError to the caller; inside
the try block a fetch failure is caught and logged, and otherwise the
response is merged by update_network_config and the device is reset
(the returned Bool records the machine.reset call). -/
def update_device_network_config (fetchRes : Except Unit (Option NetConf))
    (persistFails : Bool) (config : PyConfig) : Except Unit (PyConfig × Bool) :=
  match config.device_id with
  | none => Except.error ()
  | some _ =>
    match fetchRes with
    | Except.error _ => Except.ok (config, false)
    | Except.ok letResp =>
      Except.ok (update_network_config letResp persistFails config, true)

/-- A network interaction with an empty stream and a constant digest. -/
def env0 : DownloadEnv := ⟨[], fun _ => []⟩

/-- A network interaction whose stream is the bare separator chunk, so
the body is empty and the digest of the hashed bytes is the digest of
the empty list. -/
def envGood : DownloadEnv := ⟨[[13, 10, 13, 10]], fun _ => []⟩

/-- A network environment on which every get_data call raises at the
first recv. -/
def net0 : Nat → DownloadEnv × FailPoint := fun _ => (env0, FailPoint.atRecv 0)

/-- A network environment whose first interaction raises at the first
recv and whose later interactions complete with an empty body. -/
def net1 : Nat → DownloadEnv × FailPoint := fun k =>
  if k = 0 then (env0, FailPoint.atRecv 0) else (envGood, FailPoint.ok)

/-- A file entry whose declared hash is the hex digest that envGood
produces for the empty body. -/
def e0 : FileEntry := ⟨"http://h/f", "/a", ""⟩

/-- A manifest with an empty new list and e0 in the update list. -/
def m0 : Manifest := ⟨some [], some [e0], none, none⟩

/-- A manifest carrying e0 under the new key only, with no update
key. -/
def m1 : Manifest := ⟨some [e0], none, none, none⟩

/-- A network interaction delivering the byte 65 as body, with a
digest collaborator returning the single byte 0. -/
def envA : DownloadEnv := ⟨[[13, 10, 13, 10, 65]], fun _ => [0]⟩

/-- A file entry whose declared hash matches the envA digest (hex of
the byte 0). -/
def fA : FileEntry := ⟨"u", "/a", "00"⟩

/-- A persisted configuration with no device_id key. -/
def cfg0 : PyConfig := ⟨none, none, none, none, none⟩

/-- A persisted configuration with a device_id key. -/
def cfg1 : PyConfig := ⟨some "did", none, none, none, none⟩

theorem str_ne_append (s t : String) (h : t.length ≠ 0) : s ≠ s ++ t := by
  intro he
  have hl : s.length = (s ++ t).length := congrArg String.length he
  rw [String.length_append] at hl
  omega

theorem fsGet_fsErase_self (p : String) (fs : FS) : fsGet (fsErase p fs) p = none := by
  induction fs with
  | nil => rfl
  | cons a t ih =>
    obtain ⟨q, c⟩ := a
    by_cases hq : q = p
    · simp [fsErase, hq, ih]
    · simp [fsErase, fsGet, hq, ih]

theorem fsGet_fsErase_ne (p q : String) (fs : FS) (h : q ≠ p) :
    fsGet (fsErase p fs) q = fsGet fs q := by
  have hpq : p ≠ q := Ne.symm h
  induction fs with
  | nil => rfl
  | cons a t ih =>
    obtain ⟨r, c⟩ := a
    by_cases hr : r = p
    · subst hr
      simp [fsErase, fsGet, hpq, ih]
    · simp [fsErase, fsGet, hr, ih]

theorem fsGet_fsSet_self (p : String) (c : List Nat) (fs : FS) :
    fsGet (fsSet p c fs) p = some c := by
  simp [fsSet, fsGet]

theorem fsGet_fsSet_ne (p q : String) (c : List Nat) (fs : FS) (h : q ≠ p) :
    fsGet (fsSet p c fs) q = fsGet fs q := by
  have hpq : p ≠ q := fun hx => h hx.symm
  simp [fsSet, fsGet, hpq, fsGet_fsErase_ne p q fs h]

theorem fsGet_osRemove_ne (p q : String) (fs : FS) (h : q ≠ p) :
    fsGet (osRemove p fs).2 q = fsGet fs q := by
  unfold osRemove
  cases fsGet fs p with
  | none => rfl
  | some c => simp [fsGet_fsErase_ne p q fs h]

theorem takeUntilSep_of_not_contains (l : List Nat) (h : containsSep l = false) :
    takeUntilSep l = l := by
  induction l with
  | nil => rfl
  | cons a t ih =>
    rw [containsSep, Bool.or_eq_false_iff] at h
    simp [takeUntilSep, h.1, ih h.2]

theorem containsSep_ne_nil (l : List Nat) (h : containsSep l = true) :
    l.isEmpty = false := by
  cases l with
  | nil => simp [containsSep] at h
  | cons a t => rfl

theorem gdLoop_ok_noErr (cs : List (List Nat)) : ∀ (i : Nat) (sw : Bool),
    (gdLoop FailPoint.ok cs i sw).2 = false := by
  induction cs with
  | nil => intro i sw; rfl
  | cons c rest ih =>
    intro i sw
    simp only [gdLoop]
    split
    · rfl
    · simp [ih]

theorem gdLoop_ok_idx (cs : List (List Nat)) : ∀ (i j : Nat) (sw : Bool),
    gdLoop FailPoint.ok cs i sw = gdLoop FailPoint.ok cs j sw := by
  induction cs with
  | nil => intro i j sw; rfl
  | cons c rest ih =>
    intro i j sw
    simp only [gdLoop]
    split
    · rfl
    · simp [ih (i + 1) (j + 1)]

theorem gdLoop_ok_true_join (cs : List (List Nat))
    (h : ∀ x ∈ cs, x.isEmpty = false) : ∀ i : Nat,
    (gdLoop FailPoint.ok cs i true).1 = cs.join := by
  induction cs with
  | nil => intro i; rfl
  | cons c rest ih =>
    intro i
    have hc : c.isEmpty = false := h c (by simp)
    have hrest : ∀ x ∈ rest, x.isEmpty = false := fun x hx => h x (by simp [hx])
    simp [gdLoop, hc, ih hrest (i + 1)]

theorem gdLoop_ok_skip (pre : List (List Nat))
    (h : ∀ x ∈ pre, containsSep x = false ∧ x.isEmpty = false) :
    ∀ (rest : List (List Nat)) (i : Nat),
    gdLoop FailPoint.ok (pre ++ rest) i false = gdLoop FailPoint.ok rest i false := by
  induction pre with
  | nil => intro rest i; rfl
  | cons c pre2 ih =>
    intro rest i
    have hc := h c (by simp)
    have hpre2 : ∀ x ∈ pre2, containsSep x = false ∧ x.isEmpty = false :=
      fun x hx => h x (by simp [hx])
    rw [List.cons_append]
    simp only [gdLoop, hc.1, hc.2]
    simp only [Bool.false_eq_true, if_false, Bool.or_false]
    rw [ih hpre2 rest (i + 1), gdLoop_ok_idx rest (i + 1) i false]
    simp

theorem get_data_some_true (env : DownloadEnv) (p : String) (fs : FS) :
    get_data env (some p) true false FailPoint.ok fs =
      ⟨some (GDRet.hashOnly (hexOfBytes (env.digest (gdBody env.chunks)))),
       fsSet p (gdBody env.chunks) (fsSet p [] fs), 1, 1⟩ := by
  unfold get_data
  simp [gdLoop_ok_noErr, gdBody]

set_option maxHeartbeats 1000000 in
theorem get_data_some_fs_ne (env : DownloadEnv) (p : String) (hash fw : Bool)
    (fail : FailPoint) (fs : FS) (q : String) (h : q ≠ p) :
    fsGet (get_data env (some p) hash fw fail fs).fs q = fsGet fs q := by
  unfold get_data
  split_ifs <;>
    cases hgl : (gdLoop fail env.chunks 0 false).2 <;>
    simp [hgl, fsGet_fsSet_ne _ _ _ _ h]

theorem get_file_fs_eq (env : DownloadEnv) (fail : FailPoint) (f : FileEntry) (fs : FS) :
    (get_file env fail f fs).fs =
      (get_data env (some (f.dst_path ++ ".new")) true false fail
        (osRemove (f.dst_path ++ ".new") fs).2).fs := rfl

theorem stagePhase_events (net : Nat → DownloadEnv × FailPoint) :
    ∀ (l : List FileEntry) (k : Nat) (fs : FS),
    ((stagePhase net l k fs).2).all (fun e => !backupOrCommit e) = true := by
  intro l
  induction l with
  | nil => intro k fs; rfl
  | cons f rest ih =>
    intro k fs
    rcases hs : stageLoop net f 5 k fs with ⟨res, k2⟩
    cases res with
    | success fs2 =>
      simp only [stagePhase, hs, List.all_cons, ih k2 fs2, Bool.and_true]
      rfl
    | failed fs2 =>
      simp only [stagePhase, hs]
      rfl
    | exhausted fs2 =>
      simp only [stagePhase, hs]
      rfl

theorem deletePhase_events : ∀ (ps : List String) (fs : FS),
    ((deletePhase ps fs).2.2).all (fun e => !filesEvent e) = true := by
  intro ps
  induction ps with
  | nil => intro fs; rfl
  | cons p rest ih =>
    intro fs
    rcases hr : delete_file p fs with ⟨flag, fs2⟩
    cases flag with
    | true =>
      simp only [deletePhase, hr]
      rfl
    | false =>
      simp only [deletePhase, hr, Bool.false_eq_true, if_false, List.all_cons,
        ih fs2, Bool.and_true]
      rfl

theorem deleteBlock_events (m : Manifest) (fs : FS) :
    ((deleteBlock m fs).2).all (fun e => !filesEvent e) = true := by
  rcases hm : m.delete with _ | ps
  · simp [deleteBlock, hm]
  · rcases hd : deletePhase ps fs with ⟨flag, fs2, tr⟩
    have h2 := deletePhase_events ps fs
    rw [hd] at h2
    cases flag <;> simp [deleteBlock, hm, hd, h2]

theorem fwBlock_events (net : Nat → DownloadEnv × FailPoint) (m : Manifest)
    (k : Nat) (fs : FS) :
    ((fwBlock net m k fs).2.2).all (fun e => !filesEvent e) = true := by
  rcases hm : m.firmware with _ | f
  · simp [fwBlock, hm]
  · rcases hw : write_firmware (net k).1 (net k).2 fs with ⟨flag, fs2⟩
    cases flag <;> simp [fwBlock, hm, hw, filesEvent]

theorem hexDigitChar_lower (n : Nat) : isHexLowerChar (hexDigitChar n) = true :=
  match n with
  | 0 => rfl | 1 => rfl | 2 => rfl | 3 => rfl | 4 => rfl
  | 5 => rfl | 6 => rfl | 7 => rfl | 8 => rfl | 9 => rfl
  | 10 => rfl | 11 => rfl | 12 => rfl | 13 => rfl | 14 => rfl | 15 => rfl
  | _ + 16 => rfl

theorem hexOfBytes_lower (l : List Nat) : isLowerHexString (hexOfBytes l) = true := by
  show (hexChars l).all isHexLowerChar = true
  induction l with
  | nil => rfl
  | cons b t ih => simp [hexChars, hexDigitChar_lower, ih]

/-- C5: a manifest response whose payload is empty or null yields a
None manifest from get_update_manifest and makes update return 1
(AlreadyCurrent), and this case is distinct from a parse error
(malformed payload), which raises out of get_update_manifest and makes
update return 0 (Failed). -/
theorem claim_C5 (net : Nat → DownloadEnv × FailPoint) (fs : FS) :
    get_update_manifest false Payload.empty = Except.ok none ∧
    get_update_manifest false Payload.null = Except.ok none ∧
    update (get_update_manifest false Payload.empty) net fs = ⟨some 1, fs, []⟩ ∧
    update (get_update_manifest false Payload.null) net fs = ⟨some 1, fs, []⟩ ∧
    get_update_manifest false Payload.malformed = Except.error () ∧
    update (get_update_manifest false Payload.malformed) net fs = ⟨some 0, fs, []⟩ :=
  ⟨rfl, rfl, rfl, rfl, rfl, rfl⟩

set_option maxHeartbeats 1000000 in
/-- C7: in get_data at most one streaming digest context is created
per call, and on every failure path (ret = none) on which the context
was created, it is finalized (finals is at least 1) before the error
propagates to the caller. -/
theorem claim_C7 (env : DownloadEnv) (dp : Option String) (hash fw : Bool)
    (fail : FailPoint) (fs : FS) :
    (get_data env dp hash fw fail fs).creates ≤ 1 ∧
    ((get_data env dp hash fw fail fs).ret = none →
      (get_data env dp hash fw fail fs).creates = 1 →
      1 ≤ (get_data env dp hash fw fail fs).finals) := by
  unfold get_data
  split_ifs <;>
    cases hgl : (gdLoop fail env.chunks 0 false).2 <;>
    simp [hgl]

/-- Witness for C7: a concrete failing call (the first recv raises
after the digest context was created) on which the context is
finalized before the exception propagates. -/
theorem claim_C7_wit :
    1 ≤ (get_data env0 none true false (FailPoint.atRecv 0) []).finals :=
  (claim_C7 env0 none true false (FailPoint.atRecv 0) []).2 (by decide) (by decide)

/-- C8: delete_file never destroys the target content: when the
target exists, the call succeeds and afterwards the content previously
at the target path sits at the .bak_del backup path, the target name
being gone (the operation is a rename after removing a stale backup,
absence ignored). -/
theorem claim_C8 (p : String) (fs : FS) (c : List Nat)
    (h : fsGet fs ("/" ++ p) = some c) :
    (delete_file p fs).1 = false ∧
    fsGet (delete_file p fs).2 ("/" ++ p ++ ".bak_del") = some c ∧
    fsGet (delete_file p fs).2 ("/" ++ p) = none := by
  have hne : ("/" ++ p) ≠ ("/" ++ p ++ ".bak_del") :=
    str_ne_append ("/" ++ p) ".bak_del" (by decide)
  have h1 : fsGet (osRemove ("/" ++ p ++ ".bak_del") fs).2 ("/" ++ p) = some c := by
    rw [fsGet_osRemove_ne _ _ _ hne]
    exact h
  simp only [delete_file, osRename]
  rw [h1]
  refine ⟨rfl, ?_, ?_⟩
  · exact fsGet_fsSet_self _ _ _
  · rw [fsGet_fsSet_ne _ _ _ _ hne]
    exact fsGet_fsErase_self _ _

/-- Witness for C8 at a concrete filesystem holding the target. -/
theorem claim_C8_wit :
    (delete_file "old.txt" [("/old.txt", [1, 2, 3])]).1 = false ∧
    fsGet (delete_file "old.txt" [("/old.txt", [1, 2, 3])]).2
      ("/" ++ "old.txt" ++ ".bak_del") = some [1, 2, 3] ∧
    fsGet (delete_file "old.txt" [("/old.txt", [1, 2, 3])]).2
      ("/" ++ "old.txt") = none :=
  claim_C8 "old.txt" [("/old.txt", [1, 2, 3])] [1, 2, 3] (by decide)

/-- Counterexample for C9 as stated: a configuration without the
device_id key makes update_device_network_config raise a KeyError to
its caller (the target URL is built from config before the try block),
so the network-config path does not swallow every error for every
input. -/
theorem claim_C9_cex :
    update_device_network_config (Except.ok none) false cfg0 = Except.error () := rfl

/-- C9 as amended: update_network_config never propagates an error,
and update_device_network_config catches and logs any exception raised
while fetching, merging, or persisting the configuration (everything
inside its try block); only the target-URL construction, which reads
the device_id key of the configuration before the try block is
entered, can propagate. So whenever device_id is present the call
returns normally for every fetch, merge and persist outcome. -/
theorem claim_C9 (fetchRes : Except Unit (Option NetConf)) (persistFails : Bool)
    (config : PyConfig) (d : String) (h : config.device_id = some d) :
    (update_device_network_config fetchRes persistFails config).isOk = true := by
  unfold update_device_network_config
  rw [h]
  cases fetchRes <;> rfl

/-- Witness for amended C9: the fetch raises and persisting would
fail, yet with device_id present the call returns normally. -/
theorem claim_C9_wit :
    (update_device_network_config (Except.error ()) true cfg1).isOk = true :=
  claim_C9 (Except.error ()) true cfg1 "did" rfl

/-- C2: the claim says each entry is retried up to 5 times and the
update aborts only after 5 consecutive failures of one entry. The code
contradicts its own retry comment and retrying log message: the except
clause of the retry loop ends in return 0, so the first get_file
failure makes update return 0 even though the very next attempt would
have succeeded (second conjunct: the same entry staged from the
post-failure filesystem over the next network interaction succeeds). -/
theorem claim_C2 :
    update (Except.ok (some m0)) net1 [] =
      ⟨some 0, [("/a.new", [])], [UEvent.stage "/a"]⟩ ∧
    (get_file envGood FailPoint.ok e0 [("/a.new", [])]).ok = true := by
  decide

/-- Counterexample for C3 as stated: a manifest carrying a file entry
under the new key only (no update key) is not staged and not
committed; update skips the whole file phase (empty trace, filesystem
untouched) and still returns 2. -/
theorem claim_C3_cex :
    (update (Except.ok (some m1)) net0 []).tr = [] ∧
    (update (Except.ok (some m1)) net0 []).fs = [] ∧
    (update (Except.ok (some m1)) net0 []).ret = some 2 := by
  decide

/-- C4: get_file removes a stale dst_path ++ ".new" ignoring absence
and downloads to that .new path with hashing (both visible in its
definition); when the download completes, it returns normally iff the
computed lowercase hex digest equals the declared hash of the entry
(first conjunct); and for every outcome, completed or failed, get_file
itself writes and renames nothing at the final dst_path (second
conjunct). -/
theorem claim_C4 (env : DownloadEnv) (f : FileEntry) (fs : FS) :
    ((get_file env FailPoint.ok f fs).ok = true ↔
      hexOfBytes (env.digest (gdBody env.chunks)) = f.hash) ∧
    (∀ fail : FailPoint,
      fsGet (get_file env fail f fs).fs f.dst_path = fsGet fs f.dst_path) := by
  have hne : f.dst_path ≠ f.dst_path ++ ".new" :=
    str_ne_append f.dst_path ".new" (by decide)
  constructor
  · simp only [get_file, get_data_some_true]
    simp [beq_iff_eq]
  · intro fail
    rw [get_file_fs_eq, get_data_some_fs_ne _ _ _ _ _ _ _ hne,
      fsGet_osRemove_ne _ _ _ hne]

/-- Witness for C4: a concrete completed download whose digest
matches the declared hash, so get_file returns normally. -/
theorem claim_C4_wit : (get_file envA FailPoint.ok fA []).ok = true :=
  (claim_C4 envA fA []).1.mpr (by decide)

set_option maxHeartbeats 1000000 in
/-- C10: on successful completion the return value of get_data
depends only on its arguments: with no dest_path it returns the
accumulated body, paired with the digest string when hash is true;
with a dest_path it returns the digest string when hash is true and
nothing when hash is false; and the digest string is lowercase hex. -/
theorem claim_C10 (env : DownloadEnv) (fs : FS) (p : String) :
    (get_data env none true false FailPoint.ok fs).ret =
      some (GDRet.bytesAndHash (gdBody env.chunks)
        (hexOfBytes (env.digest (gdBody env.chunks)))) ∧
    (get_data env none false false FailPoint.ok fs).ret =
      some (GDRet.bytesOnly (gdBody env.chunks)) ∧
    (get_data env (some p) true false FailPoint.ok fs).ret =
      some (GDRet.hashOnly (hexOfBytes (env.digest (gdBody env.chunks)))) ∧
    (get_data env (some p) false false FailPoint.ok fs).ret = some GDRet.noneRet ∧
    isLowerHexString (hexOfBytes (env.digest (gdBody env.chunks))) = true := by
  refine ⟨?_, ?_, ?_, ?_, hexOfBytes_lower _⟩ <;>
    · unfold get_data
      simp [gdLoop_ok_noErr, gdBody]

/-- Counterexample for C6 as stated: a single received chunk holding
the separator twice (headers, then the body bytes 65, a second
separator, and the byte 66). The code writes only the byte 65 — the
split-and-take-index-1 drops everything after the second separator
occurrence in the triggering chunk — while the stream-level reading of
the claim expects everything after the first separator. -/
theorem claim_C6_cex :
    gdBody [[72, 13, 10, 13, 10, 65, 13, 10, 13, 10, 66]] = [65] ∧
    specBodyOfStream [[72, 13, 10, 13, 10, 65, 13, 10, 13, 10, 66]] =
      [65, 13, 10, 13, 10, 66] ∧
    gdBody [[72, 13, 10, 13, 10, 65, 13, 10, 13, 10, 66]] ≠
      specBodyOfStream [[72, 13, 10, 13, 10, 65, 13, 10, 13, 10, 66]] := by
  decide

/-- C6 as amended: boundary detection is per chunk. When the chunks
before the first separator-carrying chunk contain no separator (and no
chunk is empty), and the first chunk that contains the separator
contains exactly one occurrence of it, the bytes written to the sink
are exactly the bytes of that chunk after the separator followed by
every later chunk in full; everything before is discarded. (Without
the single-occurrence hypothesis bytes are dropped, and a separator
split across chunks is never detected.) -/
theorem claim_C6 (pre : List (List Nat)) (c : List Nat) (post : List (List Nat))
    (hpre : ∀ x ∈ pre, containsSep x = false ∧ x.isEmpty = false)
    (hc : containsSep c = true)
    (hone : containsSep (afterSep c) = false)
    (hpost : ∀ x ∈ post, x.isEmpty = false) :
    gdBody (pre ++ c :: post) = afterSep c ++ post.join := by
  unfold gdBody
  rw [gdLoop_ok_skip pre hpre (c :: post) 0]
  have hcne : c.isEmpty = false := containsSep_ne_nil c hc
  simp [gdLoop, hcne, hc, takeUntilSep_of_not_contains _ hone,
    gdLoop_ok_true_join post hpost]

/-- Witness for amended C6: two header chunks, a separator chunk
carrying the byte 65 after the separator, and a body chunk 66. -/
theorem claim_C6_wit :
    gdBody [[72, 73], [13, 10, 13, 10, 65], [66]] =
      afterSep [13, 10, 13, 10, 65] ++ List.join [[66]] :=
  claim_C6 [[72, 73]] [13, 10, 13, 10, 65] [[66]]
    (by decide) (by decide) (by decide) (by decide)

/-- C1: when the manifest carries both file lists, if the staging
pass over new ++ update fails (the retry loop gives up on some entry
within its budget and update takes the return 0 path), then update
returns 0 (Failed) with exactly the staging trace, which contains no
backup_file call and no commit rename (first part); and a backup event
can be in the trace of update only when the staging pass staged every
entry of the batch (second part). -/
theorem claim_C1 (net : Nat → DownloadEnv × FailPoint) (fs : FS) (m : Manifest)
    (nl ul : List FileEntry) (hn : m.new = some nl) (hu : m.update = some ul) :
    (∀ (fs1 : FS) (k1 : Nat) (tr1 : List UEvent),
      stagePhase net (nl ++ ul) 0 fs = (StagePhaseRes.failed0 fs1 k1, tr1) →
      update (Except.ok (some m)) net fs = ⟨some 0, fs1, tr1⟩ ∧
      (tr1.all fun e => !backupOrCommit e) = true) ∧
    (∀ d : String, UEvent.backup d ∈ (update (Except.ok (some m)) net fs).tr →
      (stagePhase net (nl ++ ul) 0 fs).1.isStageOk = true) := by
  constructor
  · intro fs1 k1 tr1 hsp
    constructor
    · simp [update, filesBlock, hn, hu, hsp]
    · have h2 := stagePhase_events net (nl ++ ul) 0 fs
      rw [hsp] at h2
      simpa using h2
  · intro d hd
    rcases hsp : stagePhase net (nl ++ ul) 0 fs with ⟨res, tr1⟩
    cases res with
    | ok fs1 k1 => rfl
    | failed0 fs1 k1 =>
      have hupd : update (Except.ok (some m)) net fs = ⟨some 0, fs1, tr1⟩ := by
        simp [update, filesBlock, hn, hu, hsp]
      rw [hupd] at hd
      have h2 := stagePhase_events net (nl ++ ul) 0 fs
      rw [hsp] at h2
      have h2b : ∀ x ∈ tr1, backupOrCommit x = false := by simpa using h2
      have h3 := h2b (UEvent.backup d) hd
      simp [backupOrCommit] at h3
    | raised fs1 k1 =>
      have hupd : update (Except.ok (some m)) net fs = ⟨none, fs1, tr1⟩ := by
        simp [update, filesBlock, hn, hu, hsp]
      rw [hupd] at hd
      have h2 := stagePhase_events net (nl ++ ul) 0 fs
      rw [hsp] at h2
      have h2b : ∀ x ∈ tr1, backupOrCommit x = false := by simpa using h2
      have h3 := h2b (UEvent.backup d) hd
      simp [backupOrCommit] at h3

/-- Witness for C1: a concrete batch whose only entry fails staging;
update returns 0 and the trace holds the staging event only. -/
theorem claim_C1_wit :
    update (Except.ok (some m0)) net0 [] =
      ⟨some 0, [("/a.new", [])], [UEvent.stage "/a"]⟩ ∧
    ([UEvent.stage "/a"].all fun e => !backupOrCommit e) = true :=
  (claim_C1 net0 [] m0 [] [e0] rfl rfl).1 [("/a.new", [])] 1 [UEvent.stage "/a"]
    (by decide)

/-- C3 as amended: the stage, backup, commit phase runs only when the
manifest has both the new and the update key (the source guard is a
conjunction); when either key is missing the phase is skipped
entirely — no stage, backup or commit event occurs — and update
proceeds directly to the delete and firmware blocks. In particular a
manifest with only a new key has none of its new entries staged or
committed. -/
theorem claim_C3 (net : Nat → DownloadEnv × FailPoint) (fs : FS) (m : Manifest)
    (h : m.new = none ∨ m.update = none) :
    ((update (Except.ok (some m)) net fs).tr.all fun e => !filesEvent e) = true := by
  have hfb : filesBlock net m fs = (BlockRes.cont fs, 0, []) := by
    rcases h with h | h
    · rcases hm : m.update with _ | ul <;> simp [filesBlock, h, hm]
    · rcases hm : m.new with _ | nl <;> simp [filesBlock, h, hm]
  simp only [update, hfb]
  rcases hd : deleteBlock m fs with ⟨br2, tr2⟩
  have hd2 := deleteBlock_events m fs
  rw [hd] at hd2
  cases br2 with
  | exc fs2 => simpa using hd2
  | ret c2 fs2 => simpa using hd2
  | cont fs2 =>
    rcases hf : fwBlock net m 0 fs2 with ⟨br3, k3, tr3⟩
    have hf3 := fwBlock_events net m 0 fs2
    rw [hf] at hf3
    cases br3 <;> simp_all [List.all_append]

/-- Witness for amended C3: the manifest with only a new key produces
a trace free of stage, backup and commit events. -/
theorem claim_C3_wit :
    ((update (Except.ok (some m1)) net0 []).tr.all fun e => !filesEvent e) = true :=
  claim_C3 net0 [] m1 (Or.inr rfl)
